import Mathlib

/-!
# Verification of the `subcmd` subcommand-resolution library

Shallow embedding of the library's core (src/handler.rs, src/message.rs,
src/result.rs, src/wrapper.rs, src/lib.rs) and proofs about it.

External crates (getopts, strsim, tabwriter, ansi_term) are not part of the
repository; their behaviour is modelled at the interface boundary the
specification describes, and each such definition carries a doc comment
saying so.
-/

set_option maxRecDepth 4000

namespace Subcmd

/-- The `Command` trait of src/lib.rs: a subcommand exposes a name, a long
help text, a one-line description, and a `run` entry point receiving the
full argv.  The side effect of `run` is modelled as an arbitrary function
from the received argv to an observation value. -/
structure Command where
  name : String
  help : String
  description : String
  run : List String → List String

/-- `Message` of src/message.rs: an append-only text buffer with an error
flag and a platform colour-capability flag (`formated`). -/
structure Message where
  text : String
  is_error : Bool
  formated : Bool
deriving DecidableEq

/-- `Message::new`: empty buffer, not an error; the `formated` flag is the
compile-time platform capability (`cfg!(target_os = ...)`), injected here as
a parameter. -/
def Message.new (fmt : Bool) : Message :=
  { text := "", is_error := false, formated := fmt }

/-- `Message::get`: a copy of the internal string. -/
def Message.get (m : Message) : String := m.text

/-- `Message::add`: append raw text to the buffer. -/
def Message.add (m : Message) (txt : String) : Message :=
  { m with text := m.text ++ txt }

/-- `Message::add_line`: `add(line)` then `add("\n")`. -/
def Message.add_line (m : Message) (line : String) : Message :=
  (m.add line).add "\n"

/-- `Message::set_error`. -/
def Message.set_error (m : Message) (state : Bool) : Message :=
  { m with is_error := state }

/-- Modelled from the spec: the external `ansi_term` collaborator's
`Red.paint(s).to_string()` wraps the text in ANSI red escape codes. -/
def redPaint (s : String) : String := "\x1b[31m" ++ s ++ "\x1b[0m"

/-- `Message::getf`: the colourized copy — red exactly when both the error
flag and the platform capability flag are set. -/
def Message.getf (m : Message) : String :=
  if m.is_error && m.formated then redPaint m.get else m.get

/-- One buffered-text operation, for stating algebraic properties of
`Message`. -/
inductive MsgOp where
  | add (s : String)
  | add_line (s : String)

/-- Apply one operation to a `Message`. -/
def applyOp (m : Message) : MsgOp → Message
  | .add s => m.add s
  | .add_line s => m.add_line s

/-- Apply a sequence of operations in call order. -/
def applyOps (m : Message) (ops : List MsgOp) : Message :=
  ops.foldl applyOp m

/-- The raw fragment one operation appends to the buffer. -/
def fragment : MsgOp → String
  | .add s => s
  | .add_line s => s ++ "\n"

/-- `CmdWrapper` of src/wrapper.rs: a command taken out of the registry
together with the full argument vector it should receive. -/
structure CmdWrapper where
  cmd : Command
  args : List String

/-- `CmdWrapper::name`. -/
def CmdWrapper.name (w : CmdWrapper) : String := w.cmd.name

/-- `CmdWrapper::help`. -/
def CmdWrapper.help (w : CmdWrapper) : String := w.cmd.help

/-- `CmdWrapper::run`: `self.cmd.run(&self.args)` — the wrapped command's
`run` applied to the stored argv. -/
def CmdWrapper.run (w : CmdWrapper) : List String := w.cmd.run w.args

/-- `CmdResult` of src/result.rs: the five possible resolutions. -/
inductive CmdResult where
  | Help (msg : Message)
  | HelpForCmd (cmd : CmdWrapper)
  | BadUsage (msg : Message)
  | UnknowCmd (msg : Message)
  | Cmd (cmd : CmdWrapper)

/-- Constructor discriminator (0 = Help, 1 = HelpForCmd, 2 = BadUsage,
3 = UnknowCmd, 4 = Cmd), for stating concrete facts about results whose
payload contains a function-valued `run` field. -/
def CmdResult.tag : CmdResult → Nat
  | .Help _ => 0
  | .HelpForCmd _ => 1
  | .BadUsage _ => 2
  | .UnknowCmd _ => 3
  | .Cmd _ => 4

/-- The message text carried by the `Message`-bearing variants. -/
def CmdResult.msgText : CmdResult → String
  | .Help m => m.text
  | .BadUsage m => m.text
  | .UnknowCmd m => m.text
  | _ => ""

/-- The name of the wrapped command in the wrapper-bearing variants. -/
def CmdResult.wrapName : CmdResult → String
  | .HelpForCmd w => w.name
  | .Cmd w => w.name
  | _ => ""

/-- The stored argv of the wrapper-bearing variants. -/
def CmdResult.wrapArgs : CmdResult → List String
  | .HelpForCmd w => w.args
  | .Cmd w => w.args
  | _ => []

/-- Modelled from the spec: one inner-loop pass of the external `strsim`
crate's Damerau–Levenshtein matrix computation (the glossary's "minimum
count of insertions, deletions, substitutions, and adjacent transpositions");
builds positions `1..` of the current row.  `prevA` is the previous row's
character (absent on the first row), `prevB` the previous character of `b`
within this row, `currJ` the value already computed at position `j`. -/
def dlRowAux (aC : Char) (prevA : Option Char) (prevTwo prev : List Nat) :
    List Char → Nat → Option Char → Nat → List Nat
  | [], _, _, _ => []
  | bC :: brest, j, prevB, currJ =>
    let cost : Nat := if aC = bC then 0 else 1
    let v1 := min (currJ + 1) (min (prev.getD (j + 1) 0 + 1) (prev.getD j 0 + cost))
    let v2 :=
      match prevA, prevB with
      | some pa, some pb =>
        if aC ≠ bC ∧ aC = pb ∧ bC = pa then min v1 (prevTwo.getD (j - 1) 0 + 1) else v1
      | _, _ => v1
    v2 :: dlRowAux aC prevA prevTwo prev brest (j + 1) (some bC) v2

/-- Modelled from the spec: the outer loop of the matrix computation — one
row per character of `a`, keeping the previous two rows. -/
def dlRows (bChars : List Char) : List Char → Nat → Option Char → List Nat → List Nat → List Nat
  | [], _, _, _, prev => prev
  | aC :: arest, i, prevA, prevTwo, prev =>
    let curr := (i + 1) :: dlRowAux aC prevA prevTwo prev bChars 0 none (i + 1)
    dlRows bChars arest (i + 1) (some aC) prev curr

/-- Modelled from the spec: `strsim::damerau_levenshtein` — edit distance
admitting insertions, deletions, substitutions and adjacent transpositions,
computed by dynamic programming. -/
def damerau_levenshtein (a b : String) : Nat :=
  if a.data.length = 0 then b.data.length
  else if b.data.length = 0 then a.data.length
  else
    (dlRows b.data a.data 0 none (List.range (b.data.length + 1))
        (List.range (b.data.length + 1))).getD b.data.length 0

/-- Result of a successful parse by the external option parser: whether the
`-h`/`--help` flag matched, and the free (positional) tokens. -/
structure GMatches where
  opt_h : Bool
  free : List String
deriving DecidableEq

/-- Modelled from the spec: the external `getopts` collaborator configured
with the single flag `-h`/`--help` and `ParsingStyle::StopAtFirstFree`
("stop interpreting tokens as flags after the first non-flag token").
`none` models a `ParseError` (unrecognized option, argument given to the
bare flag, or the flag occurring twice). -/
def gparseAux : Bool → List String → Option GMatches
  | h, [] => some ⟨h, []⟩
  | h, t :: rest =>
    if t = "--" then some ⟨h, rest⟩
    else if t = "-h" ∨ t = "--help" then
      if h then none else gparseAux true rest
    else if t = "-" then some ⟨h, t :: rest⟩
    else if "-".data.isPrefixOf t.data then none
    else some ⟨h, t :: rest⟩

/-- Modelled from the spec: `opts.parse(tokens)` for the resolver's option
set. -/
def gparse (tokens : List String) : Option GMatches :=
  gparseAux false tokens

/-- `CmdHandler` of src/handler.rs: description, registry (insertion
order), program name and raw argv (index 0 = program path). -/
structure CmdHandler where
  description : Option String
  commands : List Command
  program_name : String
  args : List String

/-- `CmdHandler::short_usage`. -/
def CmdHandler.short_usage (h : CmdHandler) : String :=
  "Usage:\n" ++ "\t" ++ h.program_name ++ " <command> [<args>...]\n"
    ++ "\t" ++ h.program_name ++ " [options]"

/-- The `brief` string assembled by `CmdHandler::help`: optional
description plus the short usage. -/
def CmdHandler.brief (h : CmdHandler) : String :=
  (match h.description with
   | some descr => descr ++ "\n\n"
   | none => "") ++ h.short_usage

/-- Modelled from the spec: the external `getopts` collaborator's
`opts.usage(brief)` — the brief followed by the generated flag-usage text
(at minimum `-h, --help  print this help menu`). -/
def opts_usage (brief : String) : String :=
  brief ++ "\n\nOptions:\n    -h, --help          print this help menu\n"

/-- Modelled from the spec: the external `tabwriter` collaborator applied to
the rows `    <name>\t<description>\n` written by `CmdHandler::help`; the
column alignment is abstracted to a fixed two-space separator, keeping one
line per registered command in registration order. -/
def tab_rows : List Command → String
  | [] => ""
  | c :: cs => "    " ++ c.name ++ "  " ++ c.description ++ "\n" ++ tab_rows cs

/-- The message assembled by `CmdHandler::help`. -/
def CmdHandler.help_msg (fmt : Bool) (h : CmdHandler) : Message :=
  (((((Message.new fmt).add_line
      (opts_usage h.brief)).add_line
      "Commands are:").add_line
      (tab_rows h.commands)).add_line
      ("\nSee '" ++ h.program_name ++ " help <command>' for more information ")).add_line
      "on a specific command."

/-- `CmdHandler::help`: the `ShowHelp` outcome. -/
def CmdHandler.help (fmt : Bool) (h : CmdHandler) : CmdResult :=
  CmdResult.Help (h.help_msg fmt)

/-- The message assembled by `CmdHandler::bad_usage`. -/
def CmdHandler.bad_usage_msg (fmt : Bool) (h : CmdHandler) : Message :=
  (((Message.new fmt).set_error true).add_line
      "Invalid arguments.").add_line h.short_usage

/-- `CmdHandler::bad_usage`: the `Malformed` outcome. -/
def CmdHandler.bad_usage (fmt : Bool) (h : CmdHandler) : CmdResult :=
  CmdResult.BadUsage (h.bad_usage_msg fmt)

/-- The message built in `CmdHandler::parse` when a similar command was
found: `No such subcommand\n` then ``    Did you mean `<name>`?``. -/
def sug_msg (fmt : Bool) (n : String) : Message :=
  (((Message.new fmt).set_error true).add_line
      "No such subcommand\n").add_line ("    Did you mean `" ++ n ++ "`?")

/-- The message built in `CmdHandler::parse` when no similar command was
found. -/
def no_such_msg (fmt : Bool) : Message :=
  ((Message.new fmt).set_error true).add_line "No such subcommand"

/-- The registry scan shared by `CmdHandler::parse` and
`CmdHandler::help_for_command`: find the first command (in registration
order) whose name is the one requested, and remove it (`Vec::remove`) from the
registry. -/
def findRemove : List Command → String → Option (Command × List Command)
  | [], _ => none
  | c :: cs, n =>
    if c.name = n then some (c, cs)
    else
      match findRemove cs n with
      | some (c0, cs0) => some (c0, c :: cs0)
      | none => none

/-- The similarity scan of `CmdHandler::parse`: track the lowest
Damerau–Levenshtein distance seen so far (starting at 3) and the first
command reaching it, via a strictly-less-than comparison. -/
def suggestLoop (tok : String) : List Command → Nat → Option Command → Option Command
  | [], _, best => best
  | c :: cs, lowest, best =>
    let new_sim := damerau_levenshtein c.name tok
    if new_sim < lowest then suggestLoop tok cs new_sim (some c)
    else suggestLoop tok cs lowest best

/-- The whole similarity pass: `lowest_sim` starts at 3, no candidate. -/
def suggest (cmds : List Command) (tok : String) : Option Command :=
  suggestLoop tok cmds 3 none

/-- `CmdHandler::help_for_command`: wrap and remove the named command, or
fall back to `bad_usage`. -/
def CmdHandler.help_for_command (fmt : Bool) (h : CmdHandler) (name : String) : CmdResult :=
  match findRemove h.commands name with
  | some (c, _) => CmdResult.HelpForCmd ⟨c, h.args⟩
  | none => h.bad_usage fmt

/-- `CmdHandler::parse` (src/handler.rs lines 124–199): option parsing of
`args[1..]`, help handling, exact-command dispatch, the `help <cmd>`
built-in, and the nearest-name suggestion. -/
def CmdHandler.parse (fmt : Bool) (h : CmdHandler) : CmdResult :=
  match gparse h.args.tail with
  | none => h.bad_usage fmt
  | some ms =>
    if ms.opt_h then
      if ms.free.length ≠ 0 then h.bad_usage fmt
      else h.help fmt
    else
      match ms.free with
      | [] => h.bad_usage fmt
      | command :: _ =>
        match findRemove h.commands command with
        | some (c, _) => CmdResult.Cmd ⟨c, h.args⟩
        | none =>
          if command = "help" ∧ ms.free.length = 2 then
            h.help_for_command fmt (ms.free.getD 1 "")
          else
            match suggest h.commands command with
            | some c => CmdResult.BadUsage (sug_msg fmt c.name)
            | none => CmdResult.UnknowCmd (no_such_msg fmt)

/-- Decidable substring test: `pat` occurs contiguously in `hay`. -/
def containsSub (hay pat : String) : Bool :=
  hay.data.tails.any (fun t => pat.data.isPrefixOf t)

/-- The concatenation, in call order, of the raw fragments appended by a
sequence of message operations. -/
def fragmentsText : List MsgOp → String
  | [] => ""
  | op :: rest => fragment op ++ fragmentsText rest

/-! ## Concrete fixtures (the commands of the repository's own tests) -/

/-- The `CmdA` test command of src/handler.rs. -/
def cmdA : Command := ⟨"cmd-a", "HELP", "DESCR", fun a => a⟩

/-- The `AnotherCmd` test command of src/handler.rs. -/
def anotherCmd : Command := ⟨"another-cmd", "HELP another", "DESCR another", fun a => a⟩

/-- A second command sharing `cmd-a`'s name, for duplicate-registration
scenarios. -/
def cmdA2 : Command := ⟨"cmd-a", "HELP2", "DESCR2", fun _ => []⟩

/-- A handler over the two test commands with program name `bin` and the
given argv. -/
def mkH (args : List String) : CmdHandler := ⟨none, [cmdA, anotherCmd], "bin", args⟩

/-! ## Helper lemmas -/

theorem containsSub_iff (hay pat : String) :
    containsSub hay pat = true ↔ pat.data <:+: hay.data := by
  unfold containsSub
  rw [List.any_eq_true]
  constructor
  · rintro ⟨t, ht, hp⟩
    rw [List.mem_tails] at ht
    rw [List.isPrefixOf_iff_prefix] at hp
    exact List.infix_iff_prefix_suffix.2 ⟨t, hp, ht⟩
  · intro hinf
    obtain ⟨t, hp, ht⟩ := List.infix_iff_prefix_suffix.1 hinf
    exact ⟨t, (List.mem_tails _ _).2 ht, (List.isPrefixOf_iff_prefix).2 hp⟩

theorem containsSub_appL (a b pat : String) (h : containsSub a pat = true) :
    containsSub (a ++ b) pat = true := by
  rw [containsSub_iff] at h ⊢
  rw [String.data_append]
  exact h.trans (List.prefix_append a.data b.data).isInfix

theorem containsSub_appR (a b pat : String) (h : containsSub b pat = true) :
    containsSub (a ++ b) pat = true := by
  rw [containsSub_iff] at h ⊢
  rw [String.data_append]
  exact h.trans (List.suffix_append a.data b.data).isInfix

theorem containsSub_refl (pat : String) : containsSub pat pat = true := by
  rw [containsSub_iff]

/-- `get` after a sequence of `add`/`add_line` calls: the original buffer
followed by the raw fragments in call order. -/
theorem applyOps_get (ops : List MsgOp) :
    ∀ m : Message, (applyOps m ops).get = m.get ++ fragmentsText ops := by
  induction ops with
  | nil =>
    intro m
    simp [applyOps, fragmentsText, Message.get]
  | cons op rest ih =>
    intro m
    have hstep : applyOps m (op :: rest) = applyOps (applyOp m op) rest := rfl
    have hone : (applyOp m op).get = m.get ++ fragment op := by
      cases op <;>
        simp [applyOp, Message.add, Message.add_line, Message.get, fragment, String.append_assoc]
    rw [hstep, ih, hone, fragmentsText, String.append_assoc]

/-- The registry scan fails exactly when no registered command has the
requested name. -/
theorem findRemove_eq_none (n : String) :
    ∀ cs : List Command, findRemove cs n = none ↔ ∀ c ∈ cs, c.name ≠ n := by
  intro cs
  induction cs with
  | nil => simp [findRemove]
  | cons c0 cs ih =>
    by_cases hc : c0.name = n
    · simp [findRemove, hc]
    · cases hfr : findRemove cs n with
      | some p => simp [findRemove, hc, hfr, (not_iff_not.2 ih).1 (by simp [hfr])]
      | none =>
        simp only [findRemove, if_neg hc, hfr, true_iff, List.mem_cons, forall_eq_or_imp]
        exact ⟨hc, ih.1 hfr⟩

/-- A successful registry scan returns the first command with the requested
name, and the registry with exactly that entry removed. -/
theorem findRemove_eq_some (n : String) :
    ∀ (cs : List Command) (c : Command) (rest : List Command),
      findRemove cs n = some (c, rest) →
      c.name = n ∧ ∃ pre post, cs = pre ++ c :: post ∧ rest = pre ++ post ∧
        ∀ c' ∈ pre, c'.name ≠ n := by
  intro cs
  induction cs with
  | nil => intro c rest h; simp [findRemove] at h
  | cons c0 cs ih =>
    intro c rest h
    by_cases hc : c0.name = n
    · rw [findRemove, if_pos hc] at h
      have hh : c0 = c ∧ cs = rest := by simpa using h
      obtain ⟨h1, h2⟩ := hh
      exact ⟨h1 ▸ hc, [], cs, by simp [← h1], by simp [← h2], by simp⟩
    · rw [findRemove, if_neg hc] at h
      cases hfr : findRemove cs n with
      | none => rw [hfr] at h; cases h
      | some p =>
        obtain ⟨c1, cs1⟩ := p
        rw [hfr] at h
        have hh : c1 = c ∧ c0 :: cs1 = rest := by simpa using h
        obtain ⟨h1, h2⟩ := hh
        obtain ⟨hname, pre, post, hsplit, hrest, hpre⟩ := ih c1 cs1 hfr
        refine ⟨h1 ▸ hname, c0 :: pre, post, by simp [hsplit, ← h1], by simp [← h2, hrest], ?_⟩
        intro c' hc'
        rcases List.mem_cons.1 hc' with hh | hh
        · exact hh ▸ hc
        · exact hpre c' hh

/-- The registry scan finds the first occurrence: any same-named command
later in the registry is shadowed. -/
theorem findRemove_first (n : String) :
    ∀ (pre : List Command) (c : Command) (post : List Command),
      c.name = n → (∀ c' ∈ pre, c'.name ≠ n) →
      findRemove (pre ++ c :: post) n = some (c, pre ++ post) := by
  intro pre
  induction pre with
  | nil => intro c post hc _; simp [findRemove, hc]
  | cons p pre ih =>
    intro c post hc hpre
    have hp : p.name ≠ n := hpre p (by simp)
    rw [List.cons_append, findRemove, if_neg hp, ih c post hc
      (fun c' h => hpre c' (List.mem_cons_of_mem p h))]
    rfl

/-- If no scanned command beats the running lowest distance, the similarity
scan keeps the current candidate. -/
theorem suggestLoop_stays (tok : String) :
    ∀ (cs : List Command) (lowest : Nat) (best : Option Command),
      (∀ c ∈ cs, lowest ≤ damerau_levenshtein c.name tok) →
      suggestLoop tok cs lowest best = best := by
  intro cs
  induction cs with
  | nil => intro lowest best _; rfl
  | cons c0 cs ih =>
    intro lowest best hall
    have h0 : ¬ damerau_levenshtein c0.name tok < lowest :=
      not_lt.2 (hall c0 (by simp))
    simp only [suggestLoop, h0, if_false, ite_false, if_neg h0]
    exact ih lowest best (fun c hc => hall c (List.mem_cons_of_mem c0 hc))

/-- If some scanned command beats the running lowest distance, the
similarity scan returns the first command attaining the minimum distance
over the scanned commands. -/
theorem suggestLoop_found (tok : String) :
    ∀ (cs : List Command) (lowest : Nat) (best : Option Command),
      (∃ c ∈ cs, damerau_levenshtein c.name tok < lowest) →
      ∃ c0, suggestLoop tok cs lowest best = some c0
        ∧ damerau_levenshtein c0.name tok < lowest
        ∧ (∀ c' ∈ cs, damerau_levenshtein c0.name tok ≤ damerau_levenshtein c'.name tok)
        ∧ ∃ pre post, cs = pre ++ c0 :: post
          ∧ ∀ c' ∈ pre, damerau_levenshtein c0.name tok < damerau_levenshtein c'.name tok := by
  intro cs
  induction cs with
  | nil =>
    rintro lowest best ⟨c, hc, _⟩
    exact absurd hc (List.not_mem_nil c)
  | cons c0 cs ih =>
    rintro lowest best ⟨c, hcmem, hclt⟩
    by_cases h0 : damerau_levenshtein c0.name tok < lowest
    · by_cases hex : ∃ c' ∈ cs,
          damerau_levenshtein c'.name tok < damerau_levenshtein c0.name tok
      · obtain ⟨c1, hres, hlt, hmin, pre, post, hsplit, hpre⟩ :=
          ih (damerau_levenshtein c0.name tok) (some c0) hex
        refine ⟨c1, ?_, lt_trans hlt h0, ?_, c0 :: pre, post, by simp [hsplit], ?_⟩
        · simpa [suggestLoop, h0] using hres
        · intro c' hc'
          rcases List.mem_cons.1 hc' with rfl | hh
          · exact le_of_lt hlt
          · exact hmin c' hh
        · intro c' hc'
          rcases List.mem_cons.1 hc' with rfl | hh
          · exact hlt
          · exact hpre c' hh
      · push_neg at hex
        refine ⟨c0, ?_, h0, ?_, [], cs, rfl, by simp⟩
        · have hrest := suggestLoop_stays tok cs
            (damerau_levenshtein c0.name tok) (some c0) hex
          simpa [suggestLoop, h0] using hrest
        · intro c' hc'
          rcases List.mem_cons.1 hc' with rfl | hh
          · exact le_refl _
          · exact hex c' hh
    · have hcs : ∃ c' ∈ cs, damerau_levenshtein c'.name tok < lowest := by
        rcases List.mem_cons.1 hcmem with rfl | hh
        · exact absurd hclt h0
        · exact ⟨c, hh, hclt⟩
      obtain ⟨c1, hres, hlt, hmin, pre, post, hsplit, hpre⟩ := ih lowest best hcs
      have hle : lowest ≤ damerau_levenshtein c0.name tok := not_lt.1 h0
      refine ⟨c1, ?_, hlt, ?_, c0 :: pre, post, by simp [hsplit], ?_⟩
      · simpa [suggestLoop, h0] using hres
      · intro c' hc'
        rcases List.mem_cons.1 hc' with rfl | hh
        · exact le_of_lt (lt_of_lt_of_le hlt hle)
        · exact hmin c' hh
      · intro c' hc'
        rcases List.mem_cons.1 hc' with rfl | hh
        · exact lt_of_lt_of_le hlt hle
        · exact hpre c' hh

/-! ## Claim theorems -/

/-- C9: for every sequence of `add`/`add_line` calls, `Message::get`
returns exactly the concatenation of the appended fragments in call order,
`add_line x` contributing `x` followed by exactly one newline; `get` with
no intervening operation returns the identical string; `set_error` never
changes the string returned by `get`; and `getf` applies red colouring if
and only if both the error flag and the platform colour-capability flag are
set, returning the raw buffer otherwise. -/
theorem C9_message_algebra (m : Message) (ops : List MsgOp) (b : Bool) (x : String) :
    (applyOps m ops).get = m.get ++ fragmentsText ops
    ∧ (m.add_line x).get = m.get ++ x ++ "\n"
    ∧ (applyOps m []).get = m.get
    ∧ (m.set_error b).get = m.get
    ∧ ((m.is_error && m.formated) = true → m.getf = redPaint m.get)
    ∧ ((m.is_error && m.formated) = false → m.getf = m.get) := by
  refine ⟨applyOps_get ops m, rfl, rfl, rfl, ?_, ?_⟩
  · intro hflag
    simp [Message.getf, hflag]
  · intro hflag
    simp [Message.getf, hflag]

theorem C9_witness :
    (applyOps ⟨"A", true, true⟩ [MsgOp.add "x", MsgOp.add_line "y"]).get = "A" ++ "xy\n"
    ∧ Message.getf ⟨"A", true, true⟩ = redPaint "A"
    ∧ Message.getf ⟨"A", false, true⟩ = "A"
    ∧ (Message.set_error ⟨"A", false, true⟩ true).get = "A" := by
  have h1 := C9_message_algebra ⟨"A", true, true⟩ [MsgOp.add "x", MsgOp.add_line "y"] true "z"
  have h2 := C9_message_algebra ⟨"A", false, true⟩ [] true "z"
  refine ⟨?_, h1.2.2.2.2.1 rfl, h2.2.2.2.2.2 rfl, h2.2.2.2.1⟩
  rw [h1.1]
  rfl

/-- C6: whenever the flag grammar rejects a token of the argv, `parse`
returns `BadUsage` whose message is exactly "Invalid arguments." followed
by the short usage text, flagged as an error; and the outcome is the same
whatever the registry and description, so the rejection takes priority over
help, dispatch and suggestion logic. -/
theorem C6_invalid_flag (fmt : Bool) (h : CmdHandler)
    (hg : gparse h.args.tail = none) :
    h.parse fmt = CmdResult.BadUsage (h.bad_usage_msg fmt)
    ∧ (h.bad_usage_msg fmt).text = "Invalid arguments." ++ "\n" ++ h.short_usage ++ "\n"
    ∧ (h.bad_usage_msg fmt).is_error = true
    ∧ containsSub (h.bad_usage_msg fmt).text "Invalid arguments." = true
    ∧ ∀ (cmds : List Command) (descr : Option String),
        CmdHandler.parse fmt ⟨descr, cmds, h.program_name, h.args⟩
          = CmdResult.BadUsage (h.bad_usage_msg fmt) := by
  refine ⟨?_, rfl, rfl, ?_, ?_⟩
  · simp [CmdHandler.parse, hg, CmdHandler.bad_usage]
  · have htxt : (h.bad_usage_msg fmt).text
        = ("Invalid arguments." ++ (("\n" ++ h.short_usage) ++ "\n")) := rfl
    rw [htxt]
    exact containsSub_appL _ _ _ (containsSub_refl _)
  · intro cmds descr
    simp [CmdHandler.parse, hg, CmdHandler.bad_usage, CmdHandler.bad_usage_msg,
      CmdHandler.short_usage]

theorem C6_witness :
    CmdHandler.parse false ⟨none, [cmdA, anotherCmd], "bin", ["bin", "--unknown-flag"]⟩
      = CmdResult.BadUsage
          (CmdHandler.bad_usage_msg false ⟨none, [cmdA, anotherCmd], "bin", ["bin", "--unknown-flag"]⟩)
    ∧ containsSub
        (CmdHandler.bad_usage_msg false
          ⟨none, [cmdA, anotherCmd], "bin", ["bin", "--unknown-flag"]⟩).text
        "Invalid arguments." = true :=
  ⟨(C6_invalid_flag false ⟨none, [cmdA, anotherCmd], "bin", ["bin", "--unknown-flag"]⟩ rfl).1,
   (C6_invalid_flag false ⟨none, [cmdA, anotherCmd], "bin", ["bin", "--unknown-flag"]⟩ rfl).2.2.2.1⟩

/-- C7: an argv producing no free tokens and no help flag (such as the bare
`[prog]`) makes `parse` return `BadUsage` with the same message shape as
the unknown-flag rejection — "Invalid arguments." followed by the short
usage — with the error flag set. -/
theorem C7_no_command (fmt : Bool) (h : CmdHandler) (ms : GMatches)
    (hg : gparse h.args.tail = some ms) (hh : ms.opt_h = false)
    (hf : ms.free = []) :
    h.parse fmt = CmdResult.BadUsage (h.bad_usage_msg fmt)
    ∧ (h.bad_usage_msg fmt).text = "Invalid arguments." ++ "\n" ++ h.short_usage ++ "\n"
    ∧ (h.bad_usage_msg fmt).is_error = true := by
  refine ⟨?_, rfl, rfl⟩
  simp [CmdHandler.parse, hg, hh, hf, CmdHandler.bad_usage]

theorem C7_witness :
    CmdHandler.parse false (mkH ["bin"])
      = CmdResult.BadUsage (CmdHandler.bad_usage_msg false (mkH ["bin"]))
    ∧ (CmdHandler.bad_usage_msg false (mkH ["bin"])).is_error = true :=
  ⟨(C7_no_command false (mkH ["bin"]) ⟨false, []⟩ rfl rfl rfl).1,
   (C7_no_command false (mkH ["bin"]) ⟨false, []⟩ rfl rfl rfl).2.2⟩

/-- C3: when the first free token names a registered command, `parse`
returns `Cmd` wrapping the first registered command of that name; the
registry scan removes exactly that entry, preserving the order of the rest;
the wrapper stores the original full argv (program name and command token
included); and `CmdWrapper::run` passes exactly that stored argv to the
command's `run` method. -/
theorem C3_dispatch (fmt : Bool) (h : CmdHandler) (ms : GMatches)
    (tok : String) (tf : List String) (c : Command) (rest : List Command)
    (hg : gparse h.args.tail = some ms) (hh : ms.opt_h = false)
    (hf : ms.free = tok :: tf)
    (hfr : findRemove h.commands tok = some (c, rest)) :
    h.parse fmt = CmdResult.Cmd ⟨c, h.args⟩
    ∧ c.name = tok
    ∧ (∃ pre post, h.commands = pre ++ c :: post ∧ rest = pre ++ post
        ∧ ∀ c' ∈ pre, c'.name ≠ tok)
    ∧ CmdWrapper.args ⟨c, h.args⟩ = h.args
    ∧ CmdWrapper.run ⟨c, h.args⟩ = c.run h.args := by
  obtain ⟨hname, hstruct⟩ := findRemove_eq_some tok h.commands c rest hfr
  refine ⟨?_, hname, hstruct, rfl, rfl⟩
  simp [CmdHandler.parse, hg, hh, hf, hfr]

theorem C3_witness :
    CmdHandler.parse false (mkH ["bin", "cmd-a"]) = CmdResult.Cmd ⟨cmdA, ["bin", "cmd-a"]⟩
    ∧ CmdWrapper.run ⟨cmdA, ["bin", "cmd-a"]⟩ = cmdA.run ["bin", "cmd-a"] :=
  ⟨(C3_dispatch false (mkH ["bin", "cmd-a"]) ⟨false, ["cmd-a"]⟩ "cmd-a" [] cmdA
      [anotherCmd] rfl rfl rfl rfl).1,
   (C3_dispatch false (mkH ["bin", "cmd-a"]) ⟨false, ["cmd-a"]⟩ "cmd-a" [] cmdA
      [anotherCmd] rfl rfl rfl rfl).2.2.2.2⟩

/-- C10: with duplicate registered names, the first-registered command wins
in both the dispatch lookup of `parse` and in `help_for_command`: the scan
starts at index 0 in registration order and takes the first exact match, so
earlier registrations shadow later ones. -/
theorem C10_first_registered_wins (fmt : Bool) (h : CmdHandler) (ms : GMatches)
    (tok : String) (tf : List String) (c : Command) (pre post : List Command)
    (hsplit : h.commands = pre ++ c :: post)
    (hname : c.name = tok)
    (hpre : ∀ c' ∈ pre, c'.name ≠ tok)
    (hg : gparse h.args.tail = some ms) (hh : ms.opt_h = false)
    (hf : ms.free = tok :: tf) :
    findRemove h.commands tok = some (c, pre ++ post)
    ∧ h.parse fmt = CmdResult.Cmd ⟨c, h.args⟩
    ∧ h.help_for_command fmt tok = CmdResult.HelpForCmd ⟨c, h.args⟩ := by
  have hfr : findRemove h.commands tok = some (c, pre ++ post) := by
    rw [hsplit]
    exact findRemove_first tok pre c post hname hpre
  refine ⟨hfr, ?_, ?_⟩
  · simp [CmdHandler.parse, hg, hh, hf, hfr]
  · simp [CmdHandler.help_for_command, hfr]

theorem C10_witness :
    CmdHandler.parse false ⟨none, [cmdA, cmdA2], "bin", ["bin", "cmd-a"]⟩
      = CmdResult.Cmd ⟨cmdA, ["bin", "cmd-a"]⟩
    ∧ CmdHandler.help_for_command false ⟨none, [cmdA, cmdA2], "bin", ["bin", "cmd-a"]⟩ "cmd-a"
      = CmdResult.HelpForCmd ⟨cmdA, ["bin", "cmd-a"]⟩ :=
  ⟨(C10_first_registered_wins false ⟨none, [cmdA, cmdA2], "bin", ["bin", "cmd-a"]⟩
      ⟨false, ["cmd-a"]⟩ "cmd-a" [] cmdA [] [cmdA2] rfl rfl (by simp) rfl rfl rfl).2.1,
   (C10_first_registered_wins false ⟨none, [cmdA, cmdA2], "bin", ["bin", "cmd-a"]⟩
      ⟨false, ["cmd-a"]⟩ "cmd-a" [] cmdA [] [cmdA2] rfl rfl (by simp) rfl rfl rfl).2.2⟩

/-- C5: the `help <target>` built-in, for a registry with no command named
`help` and exactly the two free tokens `help` and `<target>`: if `<target>`
names a registered command, `parse` returns `HelpForCmd` wrapping the first
such command, which the scan removes from the registry; if it names none,
`parse` returns `BadUsage` (a bad-usage rejection), not `UnknowCmd`. -/
theorem C5_help_builtin (fmt : Bool) (h : CmdHandler) (ms : GMatches)
    (target : String)
    (hg : gparse h.args.tail = some ms) (hh : ms.opt_h = false)
    (hf : ms.free = ["help", target])
    (hnh : ∀ c ∈ h.commands, c.name ≠ "help") :
    (∀ c rest, findRemove h.commands target = some (c, rest) →
        h.parse fmt = CmdResult.HelpForCmd ⟨c, h.args⟩
        ∧ c.name = target
        ∧ ∃ pre post, h.commands = pre ++ c :: post ∧ rest = pre ++ post
            ∧ ∀ c' ∈ pre, c'.name ≠ target)
    ∧ (findRemove h.commands target = none →
        h.parse fmt = CmdResult.BadUsage (h.bad_usage_msg fmt)) := by
  have hfrh : findRemove h.commands "help" = none := (findRemove_eq_none _ _).2 hnh
  constructor
  · intro c rest hfr
    obtain ⟨hname, hstruct⟩ := findRemove_eq_some target h.commands c rest hfr
    refine ⟨?_, hname, hstruct⟩
    simp [CmdHandler.parse, hg, hh, hf, hfrh, CmdHandler.help_for_command, hfr]
  · intro hfr
    simp [CmdHandler.parse, hg, hh, hf, hfrh, CmdHandler.help_for_command, hfr,
      CmdHandler.bad_usage]

theorem C5_witness :
    CmdHandler.parse false (mkH ["bin", "help", "cmd-a"])
      = CmdResult.HelpForCmd ⟨cmdA, ["bin", "help", "cmd-a"]⟩
    ∧ CmdHandler.parse false (mkH ["bin", "help", "zzz"])
      = CmdResult.BadUsage (CmdHandler.bad_usage_msg false (mkH ["bin", "help", "zzz"])) :=
  ⟨((C5_help_builtin false (mkH ["bin", "help", "cmd-a"]) ⟨false, ["help", "cmd-a"]⟩
      "cmd-a" rfl rfl rfl (by decide)).1 cmdA [anotherCmd] rfl).1,
   (C5_help_builtin false (mkH ["bin", "help", "zzz"]) ⟨false, ["help", "zzz"]⟩
      "zzz" rfl rfl rfl (by decide)).2 rfl⟩

/-- C8: totality and determinism of resolution: for any handler whose argv
has at least the program path at index 0, `parse` always returns exactly
one of the five `CmdResult` variants (rejections are values, nothing is
thrown — the embedding is a total function), and handlers with equal
description, registry, program name and argv yield the identical
decision. -/
theorem C8_total_deterministic (fmt : Bool) (h : CmdHandler)
    (prog : String) (rest : List String) (hargs : h.args = prog :: rest) :
    ((∃ msg, h.parse fmt = CmdResult.Help msg)
      ∨ (∃ w, h.parse fmt = CmdResult.HelpForCmd w)
      ∨ (∃ msg, h.parse fmt = CmdResult.BadUsage msg)
      ∨ (∃ msg, h.parse fmt = CmdResult.UnknowCmd msg)
      ∨ (∃ w, h.parse fmt = CmdResult.Cmd w))
    ∧ ∀ h' : CmdHandler, h.description = h'.description → h.commands = h'.commands →
        h.program_name = h'.program_name → h.args = h'.args →
        h.parse fmt = h'.parse fmt := by
  constructor
  · cases hp : h.parse fmt with
    | Help m => exact Or.inl ⟨m, rfl⟩
    | HelpForCmd w => exact Or.inr (Or.inl ⟨w, rfl⟩)
    | BadUsage m => exact Or.inr (Or.inr (Or.inl ⟨m, rfl⟩))
    | UnknowCmd m => exact Or.inr (Or.inr (Or.inr (Or.inl ⟨m, rfl⟩)))
    | Cmd w => exact Or.inr (Or.inr (Or.inr (Or.inr ⟨w, rfl⟩)))
  · intro h' h1 h2 h3 h4
    have heq : h = h' := by
      cases h
      cases h'
      simp_all
    rw [heq]

theorem C8_witness :
    (∃ msg, CmdHandler.parse false (mkH ["bin", "-h"]) = CmdResult.Help msg)
      ∨ (∃ w, CmdHandler.parse false (mkH ["bin", "-h"]) = CmdResult.HelpForCmd w)
      ∨ (∃ msg, CmdHandler.parse false (mkH ["bin", "-h"]) = CmdResult.BadUsage msg)
      ∨ (∃ msg, CmdHandler.parse false (mkH ["bin", "-h"]) = CmdResult.UnknowCmd msg)
      ∨ (∃ w, CmdHandler.parse false (mkH ["bin", "-h"]) = CmdResult.Cmd w) :=
  (C8_total_deterministic false (mkH ["bin", "-h"]) "bin" ["-h"] rfl).1

/-- A registered command's row appears inside the rendered command table. -/
theorem containsSub_tab_rows :
    ∀ (pre : List Command) (c : Command) (post : List Command),
      containsSub (tab_rows (pre ++ c :: post))
        ("    " ++ c.name ++ "  " ++ c.description ++ "\n") = true := by
  intro pre c post
  induction pre with
  | nil =>
    exact containsSub_appL ("    " ++ c.name ++ "  " ++ c.description ++ "\n")
      (tab_rows post) ("    " ++ c.name ++ "  " ++ c.description ++ "\n")
      (containsSub_refl _)
  | cons p pre ih =>
    exact containsSub_appR
      ("    " ++ p.name ++ "  " ++ p.description ++ "\n")
      (tab_rows (pre ++ c :: post))
      ("    " ++ c.name ++ "  " ++ c.description ++ "\n") ih

/-- C2: for every registry and requested token, the suggestion step
computes the Damerau–Levenshtein distance from each registered command's
name to the token and selects the minimising command with a
strictly-less-than comparison, so the first command in registration order
wins ties; a candidate is proposed if and only if the minimum distance is
strictly less than 3. -/
theorem C2_suggestion_selection (cmds : List Command) (tok : String) :
    (suggest cmds tok = none ↔ ∀ c ∈ cmds, 3 ≤ damerau_levenshtein c.name tok)
    ∧ ∀ c0, suggest cmds tok = some c0 →
        damerau_levenshtein c0.name tok < 3
        ∧ (∀ c' ∈ cmds,
            damerau_levenshtein c0.name tok ≤ damerau_levenshtein c'.name tok)
        ∧ ∃ pre post, cmds = pre ++ c0 :: post
            ∧ ∀ c' ∈ pre,
                damerau_levenshtein c0.name tok < damerau_levenshtein c'.name tok := by
  constructor
  · constructor
    · intro hnone
      by_contra hex
      push_neg at hex
      obtain ⟨c, hc, hlt⟩ := hex
      obtain ⟨c0, hres, _⟩ := suggestLoop_found tok cmds 3 none ⟨c, hc, hlt⟩
      simp only [suggest] at hnone
      rw [hnone] at hres
      cases hres
    · intro hall
      exact suggestLoop_stays tok cmds 3 none hall
  · intro c0 hs
    by_cases hex : ∃ c ∈ cmds, damerau_levenshtein c.name tok < 3
    · obtain ⟨c1, hres, hlt, hmin, hstruct⟩ := suggestLoop_found tok cmds 3 none hex
      simp only [suggest] at hs
      rw [hs] at hres
      obtain rfl : c0 = c1 := Option.some.inj hres
      exact ⟨hlt, hmin, hstruct⟩
    · push_neg at hex
      have hstay := suggestLoop_stays tok cmds 3 none hex
      simp only [suggest] at hs
      rw [hs] at hstay
      cases hstay

theorem C2_witness :
    suggest [cmdA, anotherCmd] "cmd-b" = some cmdA
    ∧ damerau_levenshtein cmdA.name "cmd-b" < 3
    ∧ ∀ c' ∈ [cmdA, anotherCmd],
        damerau_levenshtein cmdA.name "cmd-b" ≤ damerau_levenshtein c'.name "cmd-b" := by
  have h := (C2_suggestion_selection [cmdA, anotherCmd] "cmd-b").2 cmdA rfl
  exact ⟨rfl, h.1, h.2.1⟩

/-- C1 (amended): for argv `[prog, token]` where the token parses as a free
token and matches no registered name: if some registered command is at
Damerau–Levenshtein distance strictly below 3, `parse` returns `BadUsage`
(the `Malformed` variant — not `UnknowCmd`) whose message contains "No such
subcommand" and a ``Did you mean `<name>`?`` line naming the first nearest
command; if no registered command is within distance 3, it returns
`UnknowCmd` whose message is exactly "No such subcommand" plus a newline,
with no suggestion line. -/
theorem C1_no_such_subcommand (fmt : Bool) (descr : Option String)
    (cmds : List Command) (prog tok : String)
    (hg : gparse [tok] = some ⟨false, [tok]⟩)
    (hnm : ∀ c ∈ cmds, c.name ≠ tok) :
    ((∃ c ∈ cmds, damerau_levenshtein c.name tok < 3) →
      ∃ c0 : Command, CmdHandler.parse fmt ⟨descr, cmds, prog, [prog, tok]⟩
          = CmdResult.BadUsage (sug_msg fmt c0.name)
        ∧ damerau_levenshtein c0.name tok < 3
        ∧ (∀ c' ∈ cmds,
            damerau_levenshtein c0.name tok ≤ damerau_levenshtein c'.name tok)
        ∧ containsSub (sug_msg fmt c0.name).text "No such subcommand" = true
        ∧ containsSub (sug_msg fmt c0.name).text
            ("Did you mean `" ++ c0.name ++ "`?") = true)
    ∧ ((∀ c ∈ cmds, 3 ≤ damerau_levenshtein c.name tok) →
      CmdHandler.parse fmt ⟨descr, cmds, prog, [prog, tok]⟩
          = CmdResult.UnknowCmd (no_such_msg fmt)
        ∧ (no_such_msg fmt).text = "No such subcommand" ++ "\n"
        ∧ containsSub (no_such_msg fmt).text "Did you mean" = false) := by
  have hfr : findRemove cmds tok = none := (findRemove_eq_none tok cmds).2 hnm
  constructor
  · intro hex
    obtain ⟨c0, hres, hlt, hmin, _⟩ := suggestLoop_found tok cmds 3 none hex
    have hsug : suggest cmds tok = some c0 := hres
    refine ⟨c0, ?_, hlt, hmin, ?_, ?_⟩
    · simp [CmdHandler.parse, hg, hfr, hsug]
    · have htxt : (sug_msg fmt c0.name).text
          = ((("No such subcommand" ++ "\n" ++ "\n") ++ "    ")
              ++ (("Did you mean `" ++ c0.name ++ "`?") ++ "\n")) := rfl
      rw [htxt]
      exact containsSub_appL _ _ _ (containsSub_appL _ _ _
        (containsSub_appL _ _ _ (containsSub_appL _ _ _ (containsSub_refl _))))
    · have htxt : (sug_msg fmt c0.name).text
          = ((("No such subcommand" ++ "\n" ++ "\n") ++ "    ")
              ++ (("Did you mean `" ++ c0.name ++ "`?") ++ "\n")) := rfl
      rw [htxt]
      exact containsSub_appR _ _ _ (containsSub_appL _ _ _ (containsSub_refl _))
  · intro hall
    have hsug : suggest cmds tok = none := suggestLoop_stays tok cmds 3 none hall
    refine ⟨?_, rfl, ?_⟩
    · simp [CmdHandler.parse, hg, hfr, hsug]
    · have htxt : (no_such_msg fmt).text = "No such subcommand\n" := rfl
      rw [htxt]
      decide

/-- The claim's stated variant is wrong on the code: with `cmd-a` at
distance 1 from `cmd-b`, the suggestion outcome is `BadUsage` (tag 2), not
`UnknowCmd` (tag 3), even though the message carries the suggestion line. -/
theorem C1_counterexample :
    (∀ c ∈ [cmdA, anotherCmd], c.name ≠ "cmd-b")
    ∧ damerau_levenshtein cmdA.name "cmd-b" < 3
    ∧ (CmdHandler.parse false (mkH ["bin", "cmd-b"])).tag = 2
    ∧ (CmdHandler.parse false (mkH ["bin", "cmd-b"])).tag ≠ 3
    ∧ containsSub (CmdHandler.parse false (mkH ["bin", "cmd-b"])).msgText
        "No such subcommand" = true
    ∧ containsSub (CmdHandler.parse false (mkH ["bin", "cmd-b"])).msgText
        "Did you mean `cmd-a`?" = true := by
  refine ⟨by decide, by decide, rfl, by decide, rfl, rfl⟩

theorem C1_witness :
    CmdHandler.parse false ⟨none, [cmdA, anotherCmd], "bin", ["bin", "bbbbbbbbbbb"]⟩
      = CmdResult.UnknowCmd (no_such_msg false)
    ∧ (no_such_msg false).text = "No such subcommand" ++ "\n"
    ∧ containsSub (no_such_msg false).text "Did you mean" = false :=
  (C1_no_such_subcommand false none [cmdA, anotherCmd] "bin" "bbbbbbbbbbb"
    rfl (by decide)).2 (by decide)

/-- C4 (amended): if `-h`/`--help` is matched together with any additional
free token, `parse` returns `BadUsage`; if it is matched alone, `parse`
returns `Help` whose message contains "Usage", the generated flag-usage
text, "Commands are:", one name/description line per registered command in
registration order, and the trailing hint split across two lines —
`See '<program_name> help <command>' for more information ` followed on the
next line by `on a specific command.` (the hint is not one contiguous
sentence in the buffer). -/
theorem C4_help_flag (fmt : Bool) (h : CmdHandler) (ms : GMatches)
    (hg : gparse h.args.tail = some ms) (hh : ms.opt_h = true) :
    (ms.free ≠ [] → h.parse fmt = CmdResult.BadUsage (h.bad_usage_msg fmt))
    ∧ (ms.free = [] →
        h.parse fmt = CmdResult.Help (h.help_msg fmt)
        ∧ containsSub (h.help_msg fmt).text "Usage" = true
        ∧ containsSub (h.help_msg fmt).text
            "-h, --help          print this help menu" = true
        ∧ containsSub (h.help_msg fmt).text "Commands are:" = true
        ∧ (∀ (c : Command) (pre post : List Command),
            h.commands = pre ++ c :: post →
            containsSub (h.help_msg fmt).text
              ("    " ++ c.name ++ "  " ++ c.description ++ "\n") = true)
        ∧ containsSub (h.help_msg fmt).text
            ("See '" ++ h.program_name ++ " help <command>' for more information ")
            = true
        ∧ containsSub (h.help_msg fmt).text "on a specific command." = true) := by
  have hT : (h.help_msg fmt).text =
      opts_usage h.brief ++ "\n" ++ "Commands are:" ++ "\n"
        ++ tab_rows h.commands ++ "\n"
        ++ ("\nSee '" ++ h.program_name ++ " help <command>' for more information ")
        ++ "\n" ++ "on a specific command." ++ "\n" := rfl
  constructor
  · intro hne
    have hlen : ms.free.length ≠ 0 := fun h0 => hne (List.length_eq_zero.1 h0)
    simp [CmdHandler.parse, hg, hh, hlen, CmdHandler.bad_usage]
  · intro hf
    refine ⟨?_, ?_, ?_, ?_, ?_, ?_, ?_⟩
    · simp [CmdHandler.parse, hg, hh, hf, CmdHandler.help]
    · rw [hT]
      apply containsSub_appL
      apply containsSub_appL
      apply containsSub_appL
      apply containsSub_appL
      apply containsSub_appL
      apply containsSub_appL
      apply containsSub_appL
      apply containsSub_appL
      apply containsSub_appL
      apply containsSub_appL
      apply containsSub_appR
      apply containsSub_appL
      apply containsSub_appL
      apply containsSub_appL
      apply containsSub_appL
      apply containsSub_appL
      apply containsSub_appL
      decide
    · rw [hT]
      apply containsSub_appL
      apply containsSub_appL
      apply containsSub_appL
      apply containsSub_appL
      apply containsSub_appL
      apply containsSub_appL
      apply containsSub_appL
      apply containsSub_appL
      apply containsSub_appL
      apply containsSub_appR
      decide
    · rw [hT]
      apply containsSub_appL
      apply containsSub_appL
      apply containsSub_appL
      apply containsSub_appL
      apply containsSub_appL
      apply containsSub_appL
      apply containsSub_appL
      apply containsSub_appR
      decide
    · intro c pre post hsplit
      rw [hT]
      apply containsSub_appL
      apply containsSub_appL
      apply containsSub_appL
      apply containsSub_appL
      apply containsSub_appL
      apply containsSub_appR
      rw [hsplit]
      exact containsSub_tab_rows pre c post
    · rw [hT]
      apply containsSub_appL
      apply containsSub_appL
      apply containsSub_appL
      apply containsSub_appR
      exact containsSub_appR "\n"
        ("See '" ++ h.program_name ++ " help <command>' for more information ")
        ("See '" ++ h.program_name ++ " help <command>' for more information ")
        (containsSub_refl _)
    · rw [hT]
      apply containsSub_appL
      apply containsSub_appR
      decide

/-- The claim's contiguous trailing hint is wrong on the code: the help
buffer carries the hint split by a newline after "more information ", so
the one-sentence form never occurs as a substring. -/
theorem C4_counterexample :
    CmdHandler.parse false (mkH ["bin", "-h"])
      = CmdResult.Help (CmdHandler.help_msg false (mkH ["bin", "-h"]))
    ∧ containsSub (CmdHandler.help_msg false (mkH ["bin", "-h"])).text
        "See 'bin help <command>' for more information on a specific command."
        = false
    ∧ containsSub (CmdHandler.help_msg false (mkH ["bin", "-h"])).text
        "See 'bin help <command>' for more information \non a specific command."
        = true := by
  refine ⟨rfl, by decide, by decide⟩

theorem C4_witness :
    CmdHandler.parse false (mkH ["bin", "-h"])
      = CmdResult.Help (CmdHandler.help_msg false (mkH ["bin", "-h"]))
    ∧ containsSub (CmdHandler.help_msg false (mkH ["bin", "-h"])).text "Usage" = true
    ∧ containsSub (CmdHandler.help_msg false (mkH ["bin", "-h"])).text
        "Commands are:" = true
    ∧ containsSub (CmdHandler.help_msg false (mkH ["bin", "-h"])).text
        ("    " ++ cmdA.name ++ "  " ++ cmdA.description ++ "\n") = true
    ∧ CmdHandler.parse false (mkH ["bin", "-h", "x"])
      = CmdResult.BadUsage (CmdHandler.bad_usage_msg false (mkH ["bin", "-h", "x"])) := by
  have h1 := C4_help_flag false (mkH ["bin", "-h"]) ⟨true, []⟩ rfl rfl
  have h2 := C4_help_flag false (mkH ["bin", "-h", "x"]) ⟨true, ["x"]⟩ rfl rfl
  obtain ⟨hp, hu, _, hca, hrow, _, _⟩ := h1.2 rfl
  exact ⟨hp, hu, hca, hrow cmdA [] [anotherCmd] rfl, h2.1 (by simp)⟩

end Subcmd
